import Mathlib

/-!
Verification development for a Conservative Q-Learning (CQL) trainer.

The Python source (cql.py) is shallow-embedded below.  Tensors are modelled
rowwise: a vectorized torch operation acting independently on each batch row
becomes a Lean function on one row (or on a `List` of rows where the batch
structure matters).  Machine floats are modelled as exact rationals where the
code only performs field arithmetic, and as real numbers where the code uses
`exp` / `log`.  Randomness (numpy RNG draws, policy samples) is passed in as
explicit oracle arguments.  Gradient-tracking, where a claim speaks about
detaching, is modelled by a boolean taint flag carried next to each value.
-/

namespace CQL

/-! ### Replay buffer (`ReplayBuffer` in cql.py)

Storage tensors of shape `(buffer_size, dim)` are modelled as lists of rows of
length `buffer_size`; the rewards / dones columns are lists of scalars.  A
d4rl-format dataset is the five parallel arrays of its dict. -/

structure Dataset where
  observations : List (List ℚ)
  actions : List (List ℚ)
  rewards : List ℚ
  nextObservations : List (List ℚ)
  terminals : List ℚ
deriving DecidableEq

structure Buffer where
  bufferSize : ℕ
  pointer : ℕ
  size : ℕ
  states : List (List ℚ)
  actions : List (List ℚ)
  rewards : List ℚ
  nextStates : List (List ℚ)
  dones : List ℚ
deriving DecidableEq

/-- `ReplayBuffer.__init__`: zero-filled storage, pointer and size start at 0. -/
def Buffer.init (stateDim actionDim bufferSize : ℕ) : Buffer :=
  { bufferSize := bufferSize
    pointer := 0
    size := 0
    states := List.replicate bufferSize (List.replicate stateDim 0)
    actions := List.replicate bufferSize (List.replicate actionDim 0)
    rewards := List.replicate bufferSize 0
    nextStates := List.replicate bufferSize (List.replicate stateDim 0)
    dones := List.replicate bufferSize 0 }

/-- Slice assignment `storage[:n] = new` (with `n = new.length ≤ storage.length`):
the first `n` entries are replaced, the rest kept. -/
def writeSlice {α : Type} (storage new : List α) : List α :=
  new ++ storage.drop new.length

inductive LoadError where
  | nonEmptyBuffer
  | datasetTooLarge
deriving DecidableEq

/-- `ReplayBuffer.load_d4rl_dataset`.  The Python method raises `ValueError`
before touching storage when the buffer is non-empty or the dataset does not
fit; on success it writes the dataset into the leading slots, adds the number
of transitions to `_size` and sets `_pointer = min(_size, n_transitions)`.
An exception is modelled as `some err` with the buffer returned unchanged
(the raise happens before any write). -/
def load_d4rl_dataset (b : Buffer) (d : Dataset) : Buffer × Option LoadError :=
  if b.size ≠ 0 then
    (b, some LoadError.nonEmptyBuffer)
  else
    let n := d.observations.length
    if b.bufferSize < n then
      (b, some LoadError.datasetTooLarge)
    else
      ({ b with
          states := writeSlice b.states d.observations
          actions := writeSlice b.actions d.actions
          rewards := writeSlice b.rewards d.rewards
          nextStates := writeSlice b.nextStates d.nextObservations
          dones := writeSlice b.dones d.terminals
          size := b.size + n
          pointer := min (b.size + n) n }, none)

/-- The five aligned tensors returned by `ReplayBuffer.sample`. -/
structure Batch where
  states : List (List ℚ)
  actions : List (List ℚ)
  rewards : List ℚ
  nextStates : List (List ℚ)
  dones : List ℚ
deriving DecidableEq

/-- `ReplayBuffer.sample`.  `np.random.randint(0, bound, size=batch_size)` is
modelled by an entropy oracle `rng : ℕ → ℕ` reduced into range by `% bound`
(for the `bound = 0` case numpy would raise; it cannot occur in the claims'
populated-buffer setting).  The method only reads, so the buffer is threaded
through unchanged. -/
def sample (b : Buffer) (rng : ℕ → ℕ) (batchSize : ℕ) : Batch × Buffer :=
  let bound := min b.size b.pointer
  let indices := (List.range batchSize).map fun i => rng i % bound
  ({ states := indices.map fun i => b.states.getD i []
     actions := indices.map fun i => b.actions.getD i []
     rewards := indices.map fun i => b.rewards.getD i 0
     nextStates := indices.map fun i => b.nextStates.getD i []
     dones := indices.map fun i => b.dones.getD i 0 }, b)

inductive AddError where
  | notImplemented
deriving DecidableEq

/-- `ReplayBuffer.add_transition`: unconditionally raises `NotImplementedError`
before doing anything; the buffer is untouched. -/
def add_transition (b : Buffer) : Buffer × Option AddError :=
  (b, some AddError.notImplemented)

/-- The buffer produced by constructing a fresh buffer and bulk-loading `d`. -/
def loadedBuffer (stateDim actionDim cap : ℕ) (d : Dataset) : Buffer :=
  (load_d4rl_dataset (Buffer.init stateDim actionDim cap) d).1

/-! ### Target-network synchronization (`soft_update`, `update_target_network`,
and the sync cadence of `ContinuousCQL.train_ori`)

A network's parameter tensors are modelled as one flat list of scalar
parameters; `zip(target.parameters(), source.parameters())` becomes
`List.zipWith`. -/

/-- `soft_update(target, source, tau)`:
`target_param.data = (1 - tau) * target_param.data + tau * source_param.data`
for every zipped parameter pair. -/
def soft_update (tau : ℚ) (target source : List ℚ) : List ℚ :=
  List.zipWith (fun t s => (1 - tau) * t + tau * s) target source

/-- The trainer state that the target-sync logic of `train_ori` touches:
the step counter and the two critic / target-critic parameter lists.
(The critic optimizer steps of a training iteration mutate `critic1`/`critic2`
before the sync; they are not modelled here, so the critic fields are held
fixed across the embedded step.) -/
structure SyncState where
  totalIt : ℕ
  critic1 : List ℚ
  critic2 : List ℚ
  target1 : List ℚ
  target2 : List ℚ
deriving DecidableEq

/-- `ContinuousCQL.update_target_network`: soft-updates both target critics
from their source critics. -/
def update_target_network (rate : ℚ) (s : SyncState) : SyncState :=
  { s with
      target1 := soft_update rate s.target1 s.critic1
      target2 := soft_update rate s.target2 s.critic2 }

/-- The step-counter / target-sync skeleton of `ContinuousCQL.train_ori`:
`self.total_it += 1` at the top of the call, and at the bottom
`if self.total_it % self.target_update_period == 0: self.update_target_network(...)`. -/
def trainStepSync (targetUpdatePeriod : ℕ) (rate : ℚ) (s : SyncState) : SyncState :=
  let s1 := { s with totalIt := s.totalIt + 1 }
  if s1.totalIt % targetUpdatePeriod = 0 then update_target_network rate s1 else s1

/-! ### Actor loss (`ContinuousCQL._policy_loss_ori`)

States and actions are abstract types; the critics and the actor's
`log_prob` head are abstract scalar-valued functions of (state, action).
`alpha` is the entropy temperature scalar, `logPi` the per-row log-probs of
the freshly sampled `new_actions`.  `.mean()` over the batch is sum / length. -/

def mean (l : List ℚ) : ℚ := l.sum / l.length

/-- `ContinuousCQL._policy_loss_ori`: behavior cloning
`(alpha * log_pi - log_probs).mean()` while `total_it <= bc_steps`, else
`(alpha * log_pi - torch.min(critic_1(s, new_a), critic_2(s, new_a))).mean()`. -/
def policyLossOri {S A : Type} (critic1 critic2 : S → A → ℚ) (actorLogProb : S → A → ℚ)
    (totalIt bcSteps : ℕ) (alpha : ℚ)
    (observations : List S) (actions newActions : List A) (logPi : List ℚ) : ℚ :=
  if totalIt ≤ bcSteps then
    mean (List.zipWith (fun lp lq => alpha * lp - lq)
      logPi (List.zipWith actorLogProb observations actions))
  else
    mean (List.zipWith (fun lp q => alpha * lp - q)
      logPi (List.zipWith (fun o a => min (critic1 o a) (critic2 o a)) observations newActions))

/-! ### Critic TD target (`ContinuousCQL._q_loss`, lines 726-752)

Scalars here carry a taint flag `dep`: `dep = true` means the value is
connected to trainable parameters in the autograd graph.  Every arithmetic
operation propagates the flag; `.detach()` clears it.  Batch tensors from the
replay buffer (`rewards`, `dones`) and python scalars (`discount`) are
untainted constants. -/

structure TQ where
  val : ℚ
  dep : Bool
deriving DecidableEq

def TQ.add (a b : TQ) : TQ := ⟨a.val + b.val, a.dep || b.dep⟩

def TQ.sub (a b : TQ) : TQ := ⟨a.val - b.val, a.dep || b.dep⟩

def TQ.mul (a b : TQ) : TQ := ⟨a.val * b.val, a.dep || b.dep⟩

def TQ.min (a b : TQ) : TQ := ⟨Min.min a.val b.val, a.dep || b.dep⟩

def TQ.detach (a : TQ) : TQ := ⟨a.val, false⟩

def TQ.const (q : ℚ) : TQ := ⟨q, false⟩

/-- `torch.max(values, dim=-1)` over one row: the maximal value together with
the index of its first occurrence (`none` on an empty row, which torch would
reject). -/
def torchMaxWithIndex : List TQ → Option (TQ × ℕ)
  | [] => none
  | [a] => some (a, 0)
  | a :: b :: rest =>
    match torchMaxWithIndex (b :: rest) with
    | some (m, i) => if a.val < m.val then some (m, i + 1) else some (a, 0)
    | none => none

/-- `torch.min(target_critic_1(...), target_critic_2(...))` over the candidate
axis of one batch row. -/
def minCands (tq1Cands tq2Cands : List TQ) : List TQ :=
  List.zipWith TQ.min tq1Cands tq2Cands

/-- The `cql_max_target_backup = False` branch of `_q_loss`, per batch row:
`target_q = min(tq1(s', a'), tq2(s', a'))`, optionally
`target_q -= alpha * next_log_pi` when `backup_entropy`, then
`td_target = r + (1 - done) * discount * target_q.detach()`.
The target-critic outputs and `next_log_pi` arrive as oracle inputs (the
fresh policy sample at `s'` is randomness). -/
def tdTargetSingle (backupEntropy : Bool) (discount : ℚ) (alpha : TQ)
    (reward done : ℚ) (tq1Next tq2Next nextLogPi : TQ) : TQ :=
  let targetQ := TQ.min tq1Next tq2Next
  let targetQ := if backupEntropy then targetQ.sub (alpha.mul nextLogPi) else targetQ
  (TQ.const reward).add (((TQ.const (1 - done)).mul (TQ.const discount)).mul targetQ.detach)

/-- The `cql_max_target_backup = True` branch of `_q_loss`, per batch row:
`target_q, idx = torch.max(min(tq1(s', cands), tq2(s', cands)), dim=-1)`,
`next_log_pi = next_log_pis.gather(idx)`, then the same entropy adjustment and
detached TD combination as the single-draw branch. -/
def tdTargetMaxBackup (backupEntropy : Bool) (discount : ℚ) (alpha : TQ)
    (reward done : ℚ) (tq1Cands tq2Cands nextLogPis : List TQ) : TQ :=
  match torchMaxWithIndex (minCands tq1Cands tq2Cands) with
  | none => TQ.const 0
  | some (targetQ, idx) =>
    let nextLogPi := nextLogPis.getD idx (TQ.const 0)
    let targetQ := if backupEntropy then targetQ.sub (alpha.mul nextLogPi) else targetQ
    (TQ.const reward).add (((TQ.const (1 - done)).mul (TQ.const discount)).mul targetQ.detach)

/-! ### Conservative penalty engine (`ContinuousCQL._q_loss`, lines 757-864)

One batch row of the penalty pipeline.  The critic evaluations at the four
candidate groups arrive as already-computed lists of scalars (per-candidate
critic outputs for this row): `qRand` at the `cql_n_actions` uniform random
actions, `qPred` at the dataset action, `qNext` / `qCur` at the next-state /
current-state policy candidates, with their detached log-probs
`nextLogPis` / `curLogPis`.  The `exp` / `log` arithmetic lives in `ℝ`. -/

noncomputable section

/-- `torch.logsumexp` over one row. -/
def logsumexp (l : List ℝ) : ℝ := Real.log (l.map Real.exp).sum

/-- `torch.logsumexp(cat / cql_temp, dim=1) * cql_temp`: the
temperature-smoothed maximum ("OOD value estimate") over a concatenated row. -/
def oodEstimate (temp : ℝ) (cat : List ℝ) : ℝ := logsumexp (cat.map (· / temp)) * temp

/-- `random_density = np.log(0.5 ** action_dim)`. -/
def randomDensity (actionDim : ℕ) : ℝ := Real.log ((0.5 : ℝ) ^ actionDim)

/-- The concatenation built when `cql_importance_sample` is off
(`torch.cat([cql_q_rand, q_predicted.unsqueeze(1), cql_q_next_actions,
cql_q_current_actions], dim=1)`), per batch row. -/
def cqlCatNoIS (qRand : List ℝ) (qPred : ℝ) (qNext qCur : List ℝ) : List ℝ :=
  qRand ++ [qPred] ++ qNext ++ qCur

/-- The concatenation built when `cql_importance_sample` is on
(`torch.cat([cql_q_rand - random_density, cql_q_next_actions -
cql_next_log_pis.detach(), cql_q_current_actions -
cql_current_log_pis.detach()], dim=1)`), per batch row. -/
def cqlCatIS (actionDim : ℕ) (qRand qNext nextLogPis qCur curLogPis : List ℝ) : List ℝ :=
  qRand.map (· - randomDensity actionDim)
    ++ List.zipWith (· - ·) qNext nextLogPis
    ++ List.zipWith (· - ·) qCur curLogPis

/-- The row that actually enters the log-sum-exp, per the
`cql_importance_sample` flag. -/
def cqlCat (importanceSample : Bool) (actionDim : ℕ)
    (qRand : List ℝ) (qPred : ℝ) (qNext nextLogPis qCur curLogPis : List ℝ) : List ℝ :=
  if importanceSample then cqlCatIS actionDim qRand qNext nextLogPis qCur curLogPis
  else cqlCatNoIS qRand qPred qNext qCur

/-- One critic's OOD value estimate for one batch row
(`cql_qf_ood = torch.logsumexp(cql_cat_q / cql_temp, dim=1) * cql_temp`). -/
def cqlOOD (importanceSample : Bool) (temp : ℝ) (actionDim : ℕ)
    (qRand : List ℝ) (qPred : ℝ) (qNext nextLogPis qCur curLogPis : List ℝ) : ℝ :=
  oodEstimate temp (cqlCat importanceSample actionDim qRand qPred qNext nextLogPis qCur curLogPis)

/-- `torch.clamp(x, min=lo, max=hi)`. -/
def clamp (x lo hi : ℝ) : ℝ := Min.min (Max.max x lo) hi

/-- `alpha_prime = torch.clamp(torch.exp(self.log_alpha_prime()), min=0.0,
max=1000000.0)`. -/
def lagrangeAlphaPrime (logAlphaPrime : ℝ) : ℝ := clamp (Real.exp logAlphaPrime) 0 1000000

/-- The scalars produced by the Lagrange / fixed-coefficient branch of
`_q_loss` (lines 839-862). -/
structure CqlLossTerms where
  cqlMinQf1Loss : ℝ
  cqlMinQf2Loss : ℝ
  alphaPrime : ℝ
  alphaPrimeLoss : ℝ

/-- Lines 839-862 of `_q_loss`: if `cql_lagrange`, the two conservative loss
terms are `alpha_prime * cql_alpha * (cql_qf_diff - cql_target_action_gap)`
and `alpha_prime_loss = (-cql_min_qf1_loss - cql_min_qf2_loss) * 0.5`; else
the terms are `cql_qf_diff * cql_alpha` with `alpha_prime` and its loss
reported as fresh zero tensors. -/
def cqlConservativeTerms (cqlLagrange : Bool)
    (logAlphaPrime cqlAlpha targetActionGap diff1 diff2 : ℝ) : CqlLossTerms :=
  if cqlLagrange then
    let alphaPrime := lagrangeAlphaPrime logAlphaPrime
    let t1 := alphaPrime * cqlAlpha * (diff1 - targetActionGap)
    let t2 := alphaPrime * cqlAlpha * (diff2 - targetActionGap)
    ⟨t1, t2, alphaPrime, (-t1 - t2) * 0.5⟩
  else
    ⟨diff1 * cqlAlpha, diff2 * cqlAlpha, 0, 0⟩

end

/-! ### Side-effect order of one `train_ori` step

The optimizer / autograd side effects that one call of
`ContinuousCQL.train_ori` performs, in program order.  `_q_loss` is invoked
(and, under `cql_lagrange`, runs its dedicated `alpha_prime` optimizer step)
before `train_ori` reaches any of its own backward passes. -/

inductive Event where
  | alphaPrimeZeroGrad
  | alphaPrimeBackward
  | alphaPrimeStep
  | alphaBackward
  | alphaStep
  | actorBackward
  | actorStep
  | qfBackward
  | critic1Step
  | critic2Step
  | targetSync
deriving DecidableEq

/-- The side effects `_q_loss` itself performs (lines 854-857): the dedicated
`alpha_prime` optimizer pass, only in Lagrange mode. -/
def qLossEvents (cqlLagrange : Bool) : List Event :=
  if cqlLagrange then
    [Event.alphaPrimeZeroGrad, Event.alphaPrimeBackward, Event.alphaPrimeStep]
  else []

/-- The side-effect trace of one `train_ori` call: the `_q_loss` call's
effects, then the optional entropy-temperature pass, the actor pass, the
joint critic pass, and the conditional target sync. -/
def trainOriEvents (useAutomaticEntropyTuning cqlLagrange syncNow : Bool) : List Event :=
  qLossEvents cqlLagrange
    ++ (if useAutomaticEntropyTuning then [Event.alphaBackward, Event.alphaStep] else [])
    ++ [Event.actorBackward, Event.actorStep, Event.qfBackward,
        Event.critic1Step, Event.critic2Step]
    ++ (if syncNow then [Event.targetSync] else [])

/-! ### Weight initialization (`init_module_weights`,
`TanhGaussianPolicy.__init__`)

A `nn.Sequential` is a list of layers; each `nn.Linear` records which weight
initializer was last applied to it (the framework default until some
`nn.init` call overwrites it) and likewise for its bias. -/

inductive WeightInit where
  | frameworkDefault
  | orthogonalGain (gain : ℝ)
  | xavierUniformGain (gain : ℝ)

inductive BiasInit where
  | frameworkDefault
  | constantFill (c : ℝ)

inductive Layer where
  | linear (inFeatures outFeatures : ℕ) (w : WeightInit) (b : BiasInit)
  | relu

noncomputable section

/-- The `if orthogonal_init:` loop body of `init_module_weights`: orthogonal
weights with gain `sqrt 2` and zero bias on `nn.Linear` submodules, others
untouched. -/
def initInnerLayer : Layer → Layer
  | Layer.linear i o _ _ =>
    Layer.linear i o (WeightInit.orthogonalGain (Real.sqrt 2)) (BiasInit.constantFill 0)
  | Layer.relu => Layer.relu

/-- The last-layer treatment of `init_module_weights`: orthogonal gain `1e-2`
if `orthogonal_init` else `xavier_uniform_` gain `1e-2`, and bias filled with
zero in either case. -/
def initLastLayer (orthogonalInit : Bool) : Layer → Layer
  | Layer.linear i o _ _ =>
    Layer.linear i o
      (if orthogonalInit then WeightInit.orthogonalGain (1 / 100)
       else WeightInit.xavierUniformGain (1 / 100))
      (BiasInit.constantFill 0)
  | Layer.relu => Layer.relu

/-- `init_module_weights(module, orthogonal_init=False)`: mutates the layers
of `module[:-1]` only when `orthogonal_init`, then re-initializes
`module[-1]` in both branches. -/
def init_module_weights (module : List Layer) (orthogonalInit : Bool) : List Layer :=
  let inner := if orthogonalInit then module.dropLast.map initInnerLayer else module.dropLast
  match module.getLast? with
  | none => []
  | some last => inner ++ [initLastLayer orthogonalInit last]

/-- The `nn.Sequential` built in `TanhGaussianPolicy.__init__`, with every
layer still carrying the framework-default initialization. -/
def baseNetworkArch (stateDim actionDim : ℕ) : List Layer :=
  [Layer.linear stateDim 256 WeightInit.frameworkDefault BiasInit.frameworkDefault,
   Layer.relu,
   Layer.linear 256 256 WeightInit.frameworkDefault BiasInit.frameworkDefault,
   Layer.relu,
   Layer.linear 256 256 WeightInit.frameworkDefault BiasInit.frameworkDefault,
   Layer.relu,
   Layer.linear 256 (2 * actionDim) WeightInit.frameworkDefault BiasInit.frameworkDefault]

structure TanhGaussianPolicyModel where
  observationDim : ℕ
  actionDim : ℕ
  maxAction : ℝ
  orthogonalInit : Bool
  noTanh : Bool
  baseNetwork : List Layer
  logStdMultiplier : ℝ
  logStdOffset : ℝ

/-- `TanhGaussianPolicy.__init__`: stores the `orthogonal_init` flag, builds
the base network, and calls `init_module_weights(self.base_network)` — the
call site does not forward `orthogonal_init`, so the parameter's default
value `False` is what reaches the initializer. -/
def TanhGaussianPolicy.construct (stateDim actionDim : ℕ)
    (maxAction logStdMultiplier logStdOffset : ℝ)
    (orthogonalInit noTanh : Bool) : TanhGaussianPolicyModel :=
  { observationDim := stateDim
    actionDim := actionDim
    maxAction := maxAction
    orthogonalInit := orthogonalInit
    noTanh := noTanh
    baseNetwork := init_module_weights (baseNetworkArch stateDim actionDim) false
    logStdMultiplier := logStdMultiplier
    logStdOffset := logStdOffset }

end

/-! ### Spec-side readings of the conservative-penalty concatenation

These definitions follow the specification's words (not the source) and are
compared with the source-derived `cqlCat` pipeline in the refinement
theorems below. -/

noncomputable section

/-- The spec's four-group concatenation, in the spec's order: critic values at
random actions, at current-policy candidates, at next-state candidates, and at
the dataset action. -/
def specFourGroupCat (qRand qCur qNext : List ℝ) (qPred : ℝ) : List ℝ :=
  qRand ++ qCur ++ qNext ++ [qPred]

/-- Claim C1's asserted importance-sampling concatenation: the same four
groups, with `log(0.5 ^ action_dim)` subtracted from the random-action term
and the detached log-probs subtracted from the current / next candidate
terms (the dataset-action term carries no stated subtraction). -/
def specFourGroupCatIS (actionDim : ℕ)
    (qRand qCur curLogPis qNext nextLogPis : List ℝ) (qPred : ℝ) : List ℝ :=
  qRand.map (· - randomDensity actionDim)
    ++ List.zipWith (· - ·) qCur curLogPis
    ++ List.zipWith (· - ·) qNext nextLogPis
    ++ [qPred]

/-- The amended importance-sampling concatenation: only three groups — the
shifted random-action term and the shifted current / next candidate terms —
with the dataset-action term omitted. -/
def specThreeGroupCatIS (actionDim : ℕ)
    (qRand qCur curLogPis qNext nextLogPis : List ℝ) : List ℝ :=
  qRand.map (· - randomDensity actionDim)
    ++ List.zipWith (· - ·) qCur curLogPis
    ++ List.zipWith (· - ·) qNext nextLogPis

end

/-! ## Claim theorems -/

/-- C1 (counterexample): with importance sampling enabled the claim's
four-group concatenation does **not** produce the code's OOD estimate.  At
batch row `qRand = [0]`, `qPred = 0`, `qNext = qCur = [0]`, zero log-probs,
`action_dim = 1`, `temp = 1`, the code's three-group row gives
`log (2 + 1 + 1)` while the claimed four-group row gives `log (2 + 1 + 1 + 1)`. -/
theorem cqlOOD_IS_drops_dataset_term :
    cqlOOD true 1 1 [0] 0 [0] [0] [0] [0]
      ≠ oodEstimate 1 (specFourGroupCatIS 1 [0] [0] [0] [0] [0] 0) := by
  have hhalf : Real.exp (0 - randomDensity 1) = 2 := by
    have : (0 : ℝ) - randomDensity 1 = Real.log 2 := by
      simp only [randomDensity, pow_one, zero_sub]
      rw [show (0.5 : ℝ) = 2⁻¹ by norm_num, Real.log_inv]
      ring
    rw [this, Real.exp_log (by norm_num)]
  have h4 : cqlOOD true 1 1 [0] 0 [0] [0] [0] [0] = Real.log 4 := by
    simp only [cqlOOD, cqlCat, cqlCatIS, oodEstimate, logsumexp, List.map_append,
      List.sum_append, if_true, List.zipWith, List.map, List.sum_cons, List.sum_nil,
      div_one, mul_one]
    rw [hhalf]
    norm_num [Real.exp_zero]
  have h5 : oodEstimate 1 (specFourGroupCatIS 1 [0] [0] [0] [0] [0] 0) = Real.log 5 := by
    simp only [specFourGroupCatIS, oodEstimate, logsumexp, List.map_append,
      List.sum_append, List.zipWith, List.map, List.sum_cons, List.sum_nil,
      div_one, mul_one]
    rw [hhalf]
    norm_num [Real.exp_zero]
  rw [h4, h5]
  exact (Real.log_lt_log (by norm_num) (by norm_num)).ne

/-- C1 (amended): per batch row, the OOD value estimate is the
temperature-smoothed log-sum-exp of the four-group concatenation when
importance sampling is off; when importance sampling is on, the concatenation
entering the log-sum-exp has only three groups — random minus
`log(0.5 ^ action_dim)`, current / next candidates minus their detached
log-probs — with the dataset-action term omitted. -/
theorem cqlOOD_concatenation (temp : ℝ) (actionDim : ℕ)
    (qRand qNext nextLogPis qCur curLogPis : List ℝ) (qPred : ℝ) :
    cqlOOD false temp actionDim qRand qPred qNext nextLogPis qCur curLogPis
        = oodEstimate temp (specFourGroupCat qRand qCur qNext qPred)
    ∧ cqlOOD true temp actionDim qRand qPred qNext nextLogPis qCur curLogPis
        = oodEstimate temp (specThreeGroupCatIS actionDim qRand qCur curLogPis qNext nextLogPis) := by
  constructor
  · simp only [cqlOOD, cqlCat, cqlCatNoIS, specFourGroupCat, oodEstimate, logsumexp,
      List.map_append, List.sum_append, if_false, List.map, List.sum_cons, List.sum_nil,
      Bool.false_eq_true]
    congr 2
    ring
  · simp only [cqlOOD, cqlCat, cqlCatIS, specThreeGroupCatIS, oodEstimate, logsumexp,
      List.map_append, List.sum_append, if_true]
    congr 2
    ring

/-- C2 (counterexample): with `cql_importance_sample = False`,
`cql_n_actions = 1`, one fixed random action, and a critic that is constantly
`c = 0`, the OOD estimate is `log 4`, not `c = 0`: the concatenated candidate
axis holds four copies of `c`, and log-sum-exp over repeated equal values does
not collapse to the value itself. -/
theorem cqlOOD_constant_not_c :
    cqlOOD false 1 1 [0] 0 [0] [0] [0] [0] ≠ 0 := by
  have h4 : cqlOOD false 1 1 [0] 0 [0] [0] [0] [0] = Real.log 4 := by
    simp only [cqlOOD, cqlCat, cqlCatNoIS, oodEstimate, logsumexp, List.map_append,
      List.sum_append, List.map, List.sum_cons, List.sum_nil, div_one, mul_one,
      Bool.false_eq_true, if_false]
    norm_num [Real.exp_zero]
  rw [h4]
  exact (Real.log_pos (by norm_num)).ne'

/-- C2 (amended): with `cql_importance_sample = False`, `cql_n_actions = 1`, a
single fixed random action, and a critic returning the constant `c` at every
input, the OOD estimate over the concatenated candidate axis (four copies of
`c`) equals `c + temp * log 4` for any nonzero temperature. -/
theorem cqlOOD_constant_critic (actionDim : ℕ) (c temp : ℝ)
    (lpNext lpCur : List ℝ) (h : temp ≠ 0) :
    cqlOOD false temp actionDim [c] c [c] lpNext [c] lpCur = c + temp * Real.log 4 := by
  simp only [cqlOOD, cqlCat, cqlCatNoIS, oodEstimate, logsumexp, List.map_append,
    List.sum_append, List.map, List.sum_cons, List.sum_nil, Bool.false_eq_true, if_false]
  have hsum : Real.exp (c / temp) + (Real.exp (c / temp) + (Real.exp (c / temp)
      + (Real.exp (c / temp) + 0)))
      = 4 * Real.exp (c / temp) := by ring
  rw [hsum, Real.log_mul (by norm_num) (Real.exp_ne_zero _), Real.log_exp]
  field_simp
  ring

/-- C2 (witness for the amended theorem): at `c = 2`, `temp = 1` the OOD
estimate of the constantly-`2` critic is `2 + 1 * log 4`. -/
theorem cqlOOD_constant_critic_witness :
    cqlOOD false 1 1 [2] 2 [2] [0] [2] [0] = 2 + 1 * Real.log 4 :=
  cqlOOD_constant_critic 1 2 1 [0] [0] (by norm_num)

/-- C3: for step counters `t ≤ bc_steps` the actor loss is the
behavior-cloning objective `mean(alpha * log_pi - log_prob(s, a_data))` and is
invariant under replacing either critic by any other function (no critic
contribution); for `t > bc_steps` — so from `t = bc_steps + 1` onward — it is
`mean(alpha * log_pi - min(Q1, Q2)(s, a_fresh))`, which references the
critics. -/
theorem policy_loss_regimes {S A : Type} (critic1 critic2 actorLogProb : S → A → ℚ)
    (totalIt bcSteps : ℕ) (alpha : ℚ)
    (observations : List S) (actions newActions : List A) (logPi : List ℚ) :
    (totalIt ≤ bcSteps →
      policyLossOri critic1 critic2 actorLogProb totalIt bcSteps alpha
          observations actions newActions logPi
        = mean (List.zipWith (fun lp lq => alpha * lp - lq)
            logPi (List.zipWith actorLogProb observations actions))
      ∧ ∀ critic1' critic2' : S → A → ℚ,
          policyLossOri critic1 critic2 actorLogProb totalIt bcSteps alpha
              observations actions newActions logPi
            = policyLossOri critic1' critic2' actorLogProb totalIt bcSteps alpha
                observations actions newActions logPi)
    ∧ (bcSteps < totalIt →
      policyLossOri critic1 critic2 actorLogProb totalIt bcSteps alpha
          observations actions newActions logPi
        = mean (List.zipWith (fun lp q => alpha * lp - q)
            logPi (List.zipWith (fun o a => min (critic1 o a) (critic2 o a))
              observations newActions))) := by
  constructor
  · intro hle
    refine ⟨by rw [policyLossOri, if_pos hle], fun critic1' critic2' => ?_⟩
    rw [policyLossOri, if_pos hle, policyLossOri, if_pos hle]
  · intro hgt
    rw [policyLossOri, if_neg (Nat.not_le.mpr hgt)]

/-- C3 (witness): at `bc_steps = 1` the loss at `t = 1` is the imitation
objective and ignores the critics, and at `t = 2` it is the Q-maximization
objective, for a concrete two-row batch over scalar states / actions. -/
theorem policy_loss_regimes_witness :
    (policyLossOri (fun s a => s + a) (fun s a => s - a) (fun s a => s * a)
        1 1 2 [(1 : ℚ), 2] [(3 : ℚ), 4] [(5 : ℚ), 6] [(1 : ℚ), 2]
      = mean (List.zipWith (fun lp lq => 2 * lp - lq)
          [(1 : ℚ), 2] (List.zipWith (fun s a => s * a) [(1 : ℚ), 2] [(3 : ℚ), 4])))
    ∧ (policyLossOri (fun s a => s + a) (fun s a => s - a) (fun s a => s * a)
        1 1 2 [(1 : ℚ), 2] [(3 : ℚ), 4] [(5 : ℚ), 6] [(1 : ℚ), 2]
      = policyLossOri (fun s a => s * a + 7) (fun _ a => a) (fun s a => s * a)
          1 1 2 [(1 : ℚ), 2] [(3 : ℚ), 4] [(5 : ℚ), 6] [(1 : ℚ), 2])
    ∧ (policyLossOri (fun s a => s + a) (fun s a => s - a) (fun s a => s * a)
        2 1 2 [(1 : ℚ), 2] [(3 : ℚ), 4] [(5 : ℚ), 6] [(1 : ℚ), 2]
      = mean (List.zipWith (fun lp q => 2 * lp - q)
          [(1 : ℚ), 2] (List.zipWith (fun o a => min (o + a) (o - a))
            [(1 : ℚ), 2] [(5 : ℚ), 6]))) :=
  ⟨((policy_loss_regimes (fun s a => s + a) (fun s a => s - a) (fun s a => s * a)
      1 1 2 [1, 2] [3, 4] [5, 6] [1, 2]).1 (by decide)).1,
   ((policy_loss_regimes (fun s a => s + a) (fun s a => s - a) (fun s a => s * a)
      1 1 2 [1, 2] [3, 4] [5, 6] [1, 2]).1 (by decide)).2
     (fun s a => s * a + 7) (fun _ a => a),
   (policy_loss_regimes (fun s a => s + a) (fun s a => s - a) (fun s a => s * a)
      2 1 2 [1, 2] [3, 4] [5, 6] [1, 2]).2 (by decide)⟩

/-- `torchMaxWithIndex` on a nonempty row returns an in-range index pointing
at an entry that attains the maximum of the row's values. -/
lemma torchMaxWithIndex_spec :
    ∀ l : List TQ, l ≠ [] →
      ∃ m idx, torchMaxWithIndex l = some (m, idx)
        ∧ ∃ h : idx < l.length, l.get ⟨idx, h⟩ = m
          ∧ ∀ j (hj : j < l.length), (l.get ⟨j, hj⟩).val ≤ m.val := by
  intro l
  induction l with
  | nil => intro h; exact absurd rfl h
  | cons a tl ih =>
    intro _
    cases tl with
    | nil =>
      refine ⟨a, 0, rfl, Nat.zero_lt_one, rfl, ?_⟩
      intro j hj
      have hj0 : j = 0 := Nat.lt_one_iff.mp hj
      subst hj0
      exact le_refl _
    | cons b rest =>
      obtain ⟨m, i, heq, hi, hget, hbound⟩ := ih (by simp)
      by_cases hc : a.val < m.val
      · refine ⟨m, i + 1, ?_, Nat.succ_lt_succ hi, by simpa using hget, ?_⟩
        · simp only [torchMaxWithIndex, heq, if_pos hc]
        · intro j hj
          cases j with
          | zero => exact le_of_lt hc
          | succ j' => simpa using hbound j' (Nat.lt_of_succ_lt_succ hj)
      · refine ⟨a, 0, ?_, Nat.succ_pos _, rfl, ?_⟩
        · simp only [torchMaxWithIndex, heq, if_neg hc]
        · intro j hj
          cases j with
          | zero => exact le_refl _
          | succ j' =>
            have := hbound j' (Nat.lt_of_succ_lt_succ hj)
            simpa using le_trans this (not_lt.mp hc)

/-- C4: per batch row the critic TD target is
`r + (1 - done) * discount * target_q`, where `target_q` is the minimum of the
two target critics at the fresh next action (or, under
`cql_max_target_backup`, the candidate attaining the highest min-target-critic
value, with the gathered matching log-prob), with `alpha * next_log_pi`
subtracted before forming the target when `backup_entropy` is on — and the
target carries no gradient dependence (it is detached), whatever the gradient
taint of the critic outputs and log-probs. -/
theorem td_target_formula (backupEntropy : Bool) (discount : ℚ) (alpha : TQ)
    (reward done : ℚ) (tq1Next tq2Next nextLogPi : TQ)
    (tq1Cands tq2Cands nextLogPis : List TQ)
    (hne : minCands tq1Cands tq2Cands ≠ []) :
    ((tdTargetSingle backupEntropy discount alpha reward done tq1Next tq2Next nextLogPi).dep
        = false
      ∧ (tdTargetSingle backupEntropy discount alpha reward done tq1Next tq2Next nextLogPi).val
        = reward + (1 - done) * discount
            * (Min.min tq1Next.val tq2Next.val
                - (if backupEntropy then alpha.val * nextLogPi.val else 0)))
    ∧ ((tdTargetMaxBackup backupEntropy discount alpha reward done
          tq1Cands tq2Cands nextLogPis).dep = false
      ∧ ∃ idx, ∃ hidx : idx < (minCands tq1Cands tq2Cands).length,
          (∀ j (hj : j < (minCands tq1Cands tq2Cands).length),
            ((minCands tq1Cands tq2Cands).get ⟨j, hj⟩).val
              ≤ ((minCands tq1Cands tq2Cands).get ⟨idx, hidx⟩).val)
          ∧ (tdTargetMaxBackup backupEntropy discount alpha reward done
              tq1Cands tq2Cands nextLogPis).val
            = reward + (1 - done) * discount
                * (((minCands tq1Cands tq2Cands).get ⟨idx, hidx⟩).val
                    - (if backupEntropy
                       then alpha.val * (nextLogPis.getD idx (TQ.const 0)).val
                       else 0))) := by
  constructor
  · constructor
    · cases backupEntropy <;>
        simp [tdTargetSingle, TQ.add, TQ.mul, TQ.sub, TQ.min, TQ.detach, TQ.const]
    · cases backupEntropy <;>
        simp [tdTargetSingle, TQ.add, TQ.mul, TQ.sub, TQ.min, TQ.detach, TQ.const]
  · obtain ⟨m, idx, heq, hidx, hget, hbound⟩ :=
      torchMaxWithIndex_spec (minCands tq1Cands tq2Cands) hne
    constructor
    · cases backupEntropy <;>
        simp [tdTargetMaxBackup, heq, TQ.add, TQ.mul, TQ.sub, TQ.detach, TQ.const]
    · refine ⟨idx, hidx, by rw [hget]; exact hbound, ?_⟩
      rw [hget]
      cases backupEntropy <;>
        simp [tdTargetMaxBackup, heq, TQ.add, TQ.mul, TQ.sub, TQ.detach, TQ.const]

/-- C4 (witness): concrete evaluation of both TD-target branches on a
two-candidate row with tainted critic outputs; the target value matches the
formula and is detached. -/
theorem td_target_formula_witness :
    (tdTargetSingle true 1 ⟨1, true⟩ 2 0 ⟨3, true⟩ ⟨5, true⟩ ⟨1, true⟩).dep = false
    ∧ (tdTargetMaxBackup true 1 ⟨1, true⟩ 2 0 [⟨1, true⟩, ⟨4, true⟩]
        [⟨2, true⟩, ⟨3, true⟩] [⟨1, false⟩, ⟨2, false⟩]).dep = false
    ∧ (tdTargetSingle true 1 ⟨1, true⟩ 2 0 ⟨3, true⟩ ⟨5, true⟩ ⟨1, true⟩).val
      = 2 + (1 - 0) * 1 * (Min.min (3 : ℚ) 5 - (if true then 1 * 1 else 0)) :=
  ⟨(td_target_formula true 1 ⟨1, true⟩ 2 0 ⟨3, true⟩ ⟨5, true⟩ ⟨1, true⟩
      [⟨1, true⟩, ⟨4, true⟩] [⟨2, true⟩, ⟨3, true⟩] [⟨1, false⟩, ⟨2, false⟩]
      (by decide)).1.1,
   (td_target_formula true 1 ⟨1, true⟩ 2 0 ⟨3, true⟩ ⟨5, true⟩ ⟨1, true⟩
      [⟨1, true⟩, ⟨4, true⟩] [⟨2, true⟩, ⟨3, true⟩] [⟨1, false⟩, ⟨2, false⟩]
      (by decide)).2.1,
   (td_target_formula true 1 ⟨1, true⟩ 2 0 ⟨3, true⟩ ⟨5, true⟩ ⟨1, true⟩
      [⟨1, true⟩, ⟨4, true⟩] [⟨2, true⟩, ⟨3, true⟩] [⟨1, false⟩, ⟨2, false⟩]
      (by decide)).1.2⟩

/-- `getD` distributes over `zipWith` at in-range indices. -/
lemma getD_zipWith (f : ℚ → ℚ → ℚ) :
    ∀ (l1 l2 : List ℚ) (i : ℕ), i < l1.length → i < l2.length →
      (List.zipWith f l1 l2).getD i 0 = f (l1.getD i 0) (l2.getD i 0) := by
  intro l1
  induction l1 with
  | nil => intro l2 i h1 _; exact absurd h1 (by simp)
  | cons a tl ih =>
    intro l2 i h1 h2
    cases l2 with
    | nil => exact absurd h2 (by simp)
    | cons b tl2 =>
      cases i with
      | zero => simp
      | succ i' =>
        simp only [List.zipWith, List.getD_cons_succ]
        exact ih tl2 i' (Nat.lt_of_succ_lt_succ h1) (Nat.lt_of_succ_lt_succ h2)

/-- C5: one embedded training step increments the step counter; exactly on
steps where the (incremented) counter is a multiple of `target_update_period`
the target critics are synchronized, each parameter becoming
`(1 - tau) * old + tau * source` elementwise, and otherwise the target
parameters are untouched. -/
theorem target_sync_step (period : ℕ) (rate : ℚ) (s : SyncState) :
    (trainStepSync period rate s).totalIt = s.totalIt + 1
    ∧ ((s.totalIt + 1) % period = 0 →
        (∀ i, i < s.target1.length → i < s.critic1.length →
          (trainStepSync period rate s).target1.getD i 0
            = (1 - rate) * s.target1.getD i 0 + rate * s.critic1.getD i 0)
        ∧ (∀ i, i < s.target2.length → i < s.critic2.length →
          (trainStepSync period rate s).target2.getD i 0
            = (1 - rate) * s.target2.getD i 0 + rate * s.critic2.getD i 0))
    ∧ ((s.totalIt + 1) % period ≠ 0 →
        (trainStepSync period rate s).target1 = s.target1
        ∧ (trainStepSync period rate s).target2 = s.target2) := by
  refine ⟨?_, ?_, ?_⟩
  · rw [trainStepSync]
    by_cases h : (s.totalIt + 1) % period = 0 <;> simp [h, update_target_network]
  · intro h
    constructor
    · intro i h1 h2
      rw [trainStepSync]
      simp only [h, if_pos, update_target_network, soft_update]
      exact getD_zipWith _ s.target1 s.critic1 i h1 h2
    · intro i h1 h2
      rw [trainStepSync]
      simp only [h, if_pos, update_target_network, soft_update]
      exact getD_zipWith _ s.target2 s.critic2 i h1 h2
  · intro h
    rw [trainStepSync]
    simp [h]

/-- C5 (witness): with `tau = 1/2`, period 2 and counter 1 the sync fires and
each target parameter becomes the elementwise average; with counter 1 and
period 3 the targets are untouched. -/
theorem target_sync_step_witness :
    ((trainStepSync 2 (1 / 2) ⟨1, [2, 4], [6], [0, 0], [0]⟩).target1.getD 0 0
        = (1 - 1 / 2) * (0 : ℚ) + (1 / 2) * 2
      ∧ (trainStepSync 2 (1 / 2) ⟨1, [2, 4], [6], [0, 0], [0]⟩).target2.getD 0 0
        = (1 - 1 / 2) * (0 : ℚ) + (1 / 2) * 6)
    ∧ (trainStepSync 3 (1 / 2) ⟨1, [2, 4], [6], [0, 0], [0]⟩).target1 = [0, 0] :=
  ⟨⟨((target_sync_step 2 (1 / 2) ⟨1, [2, 4], [6], [0, 0], [0]⟩).2.1
      (by decide)).1 0 (by decide) (by decide),
    ((target_sync_step 2 (1 / 2) ⟨1, [2, 4], [6], [0, 0], [0]⟩).2.1
      (by decide)).2 0 (by decide) (by decide)⟩,
   ((target_sync_step 3 (1 / 2) ⟨1, [2, 4], [6], [0, 0], [0]⟩).2.2 (by decide)).1⟩

/-- C6 (counterexample): a load of an **empty** dataset succeeds and leaves
the buffer empty, so the immediately following second load also succeeds —
"a load followed immediately by a second load always fails" is false. -/
theorem load_twice_empty_dataset_succeeds :
    (load_d4rl_dataset
      (load_d4rl_dataset (Buffer.init 1 1 2) ⟨[], [], [], [], []⟩).1
      ⟨[], [], [], [], []⟩).2 = none := by
  decide

/-- C6 (amended): loading into a non-empty buffer fails with the
state-precondition error and returns the buffer unmodified; loading a dataset
larger than the capacity fails with the capacity error before any write; and
a load of a **nonempty** dataset followed immediately by a second load fails
with the state-precondition error, leaving the first load's result intact. -/
theorem load_preconditions (b : Buffer) (d d2 : Dataset) :
    (b.size ≠ 0 → load_d4rl_dataset b d = (b, some LoadError.nonEmptyBuffer))
    ∧ (b.size = 0 → b.bufferSize < d.observations.length →
        load_d4rl_dataset b d = (b, some LoadError.datasetTooLarge))
    ∧ (b.size = 0 → d.observations.length ≤ b.bufferSize →
        d.observations.length ≠ 0 →
        load_d4rl_dataset (load_d4rl_dataset b d).1 d2
          = ((load_d4rl_dataset b d).1, some LoadError.nonEmptyBuffer)) := by
  refine ⟨?_, ?_, ?_⟩
  · intro h
    rw [load_d4rl_dataset, if_pos h]
  · intro h0 hbig
    rw [load_d4rl_dataset, if_neg (by simp [h0]), if_pos hbig]
  · intro h0 hfit hn
    have hfst : (load_d4rl_dataset b d).1.size = b.size + d.observations.length := by
      rw [load_d4rl_dataset, if_neg (by simp [h0]), if_neg (Nat.not_lt.mpr hfit)]
    have hne : (load_d4rl_dataset b d).1.size ≠ 0 := by
      rw [hfst, h0, Nat.zero_add]
      exact hn
    rw [load_d4rl_dataset, if_pos hne]

/-- C6 (witness): the three failure modes at concrete buffers and a
one-transition dataset: load into a non-empty buffer, load exceeding
capacity 0, and a successful load followed by a failing second load. -/
theorem load_preconditions_witness :
    (load_d4rl_dataset ⟨2, 1, 1, [[0], [0]], [[0], [0]], [0, 0], [[0], [0]], [0, 0]⟩
        ⟨[[1]], [[2]], [3], [[4]], [0]⟩
      = (⟨2, 1, 1, [[0], [0]], [[0], [0]], [0, 0], [[0], [0]], [0, 0]⟩,
         some LoadError.nonEmptyBuffer))
    ∧ (load_d4rl_dataset (Buffer.init 1 1 0) ⟨[[1]], [[2]], [3], [[4]], [0]⟩
      = (Buffer.init 1 1 0, some LoadError.datasetTooLarge))
    ∧ (load_d4rl_dataset
        (load_d4rl_dataset (Buffer.init 1 1 2) ⟨[[1]], [[2]], [3], [[4]], [0]⟩).1
        ⟨[[1]], [[2]], [3], [[4]], [0]⟩
      = ((load_d4rl_dataset (Buffer.init 1 1 2) ⟨[[1]], [[2]], [3], [[4]], [0]⟩).1,
         some LoadError.nonEmptyBuffer)) :=
  ⟨(load_preconditions ⟨2, 1, 1, [[0], [0]], [[0], [0]], [0, 0], [[0], [0]], [0, 0]⟩
      ⟨[[1]], [[2]], [3], [[4]], [0]⟩ ⟨[[1]], [[2]], [3], [[4]], [0]⟩).1 (by decide),
   ((load_preconditions (Buffer.init 1 1 0) ⟨[[1]], [[2]], [3], [[4]], [0]⟩
      ⟨[[1]], [[2]], [3], [[4]], [0]⟩).2.1 (by decide) (by decide)),
   ((load_preconditions (Buffer.init 1 1 2) ⟨[[1]], [[2]], [3], [[4]], [0]⟩
      ⟨[[1]], [[2]], [3], [[4]], [0]⟩).2.2 (by decide) (by decide) (by decide))⟩

/-- `getD` after mapping a function over `List.range`. -/
lemma getD_map_range {α : Type} (g : ℕ → α) (B j : ℕ) (dflt : α) (h : j < B) :
    ((List.range B).map g).getD j dflt = g j := by
  rw [List.getD_eq_getElem _ _ (by simpa using h)]
  simp

/-- `getD` on an overwritten prefix reads the new data at in-range indices. -/
lemma getD_writeSlice {α : Type} (storage new : List α) (i : ℕ) (dflt : α)
    (h : i < new.length) :
    (writeSlice storage new).getD i dflt = new.getD i dflt :=
  List.getD_append _ _ _ _ h

/-- After a successful bulk load into a fresh buffer, size and pointer both
equal the dataset length and each storage tensor holds the dataset array in
its leading slots. -/
lemma loadedBuffer_spec (sd ad cap : ℕ) (d : Dataset)
    (hfit : d.observations.length ≤ cap) :
    (loadedBuffer sd ad cap d).size = d.observations.length
    ∧ (loadedBuffer sd ad cap d).pointer = d.observations.length
    ∧ (loadedBuffer sd ad cap d).states
        = writeSlice (Buffer.init sd ad cap).states d.observations
    ∧ (loadedBuffer sd ad cap d).actions
        = writeSlice (Buffer.init sd ad cap).actions d.actions
    ∧ (loadedBuffer sd ad cap d).rewards
        = writeSlice (Buffer.init sd ad cap).rewards d.rewards
    ∧ (loadedBuffer sd ad cap d).nextStates
        = writeSlice (Buffer.init sd ad cap).nextStates d.nextObservations
    ∧ (loadedBuffer sd ad cap d).dones
        = writeSlice (Buffer.init sd ad cap).dones d.terminals := by
  have hload : load_d4rl_dataset (Buffer.init sd ad cap) d
      = ({ Buffer.init sd ad cap with
            states := writeSlice (Buffer.init sd ad cap).states d.observations
            actions := writeSlice (Buffer.init sd ad cap).actions d.actions
            rewards := writeSlice (Buffer.init sd ad cap).rewards d.rewards
            nextStates := writeSlice (Buffer.init sd ad cap).nextStates d.nextObservations
            dones := writeSlice (Buffer.init sd ad cap).dones d.terminals
            size := (Buffer.init sd ad cap).size + d.observations.length
            pointer := min ((Buffer.init sd ad cap).size + d.observations.length)
              d.observations.length }, none) := by
    rw [load_d4rl_dataset, if_neg (by simp [Buffer.init]),
      if_neg (by simpa [Buffer.init] using Nat.not_lt.mpr hfit)]
  refine ⟨?_, ?_, ?_, ?_, ?_, ?_, ?_⟩ <;>
    rw [loadedBuffer, hload] <;>
    simp [Buffer.init]

/-- C7: for any batch size `1 ≤ B ≤ populated size`, sampling from a
successfully loaded buffer mutates nothing, returns five aligned columns of
leading dimension `B`, and each output row `j` is read at one common index
`i < min(size, pointer)` at which every column reproduces the loaded
dataset's transition `i`. -/
theorem sample_roundtrip (sd ad cap : ℕ) (d : Dataset) (rng : ℕ → ℕ) (B : ℕ)
    (hfit : d.observations.length ≤ cap)
    (hact : d.actions.length = d.observations.length)
    (hrew : d.rewards.length = d.observations.length)
    (hnobs : d.nextObservations.length = d.observations.length)
    (hterm : d.terminals.length = d.observations.length)
    (hB1 : 1 ≤ B) (hB2 : B ≤ (loadedBuffer sd ad cap d).size) :
    (sample (loadedBuffer sd ad cap d) rng B).2 = loadedBuffer sd ad cap d
    ∧ (sample (loadedBuffer sd ad cap d) rng B).1.states.length = B
    ∧ (sample (loadedBuffer sd ad cap d) rng B).1.actions.length = B
    ∧ (sample (loadedBuffer sd ad cap d) rng B).1.rewards.length = B
    ∧ (sample (loadedBuffer sd ad cap d) rng B).1.nextStates.length = B
    ∧ (sample (loadedBuffer sd ad cap d) rng B).1.dones.length = B
    ∧ ∀ j, j < B →
        ∃ i, i < Min.min (loadedBuffer sd ad cap d).size (loadedBuffer sd ad cap d).pointer
          ∧ (sample (loadedBuffer sd ad cap d) rng B).1.states.getD j []
              = d.observations.getD i []
          ∧ (sample (loadedBuffer sd ad cap d) rng B).1.actions.getD j []
              = d.actions.getD i []
          ∧ (sample (loadedBuffer sd ad cap d) rng B).1.rewards.getD j 0
              = d.rewards.getD i 0
          ∧ (sample (loadedBuffer sd ad cap d) rng B).1.nextStates.getD j []
              = d.nextObservations.getD i []
          ∧ (sample (loadedBuffer sd ad cap d) rng B).1.dones.getD j 0
              = d.terminals.getD i 0 := by
  obtain ⟨hsize, hptr, hstates, hactions, hrewards, hnext, hdones⟩ :=
    loadedBuffer_spec sd ad cap d hfit
  have hnpos : 0 < d.observations.length := by
    have := le_trans hB1 hB2
    rw [hsize] at this
    exact this
  have hbound : Min.min (loadedBuffer sd ad cap d).size (loadedBuffer sd ad cap d).pointer
      = d.observations.length := by
    rw [hsize, hptr, min_self]
  refine ⟨rfl, ?_, ?_, ?_, ?_, ?_, ?_⟩
  · simp [sample]
  · simp [sample]
  · simp [sample]
  · simp [sample]
  · simp [sample]
  · intro j hj
    refine ⟨rng j % d.observations.length, Nat.mod_lt _ hnpos |>.trans_eq hbound.symm,
      ?_, ?_, ?_, ?_, ?_⟩
    · show (((List.range B).map fun i =>
          rng i % (Min.min (loadedBuffer sd ad cap d).size
            (loadedBuffer sd ad cap d).pointer)).map fun i =>
          (loadedBuffer sd ad cap d).states.getD i []).getD j [] = _
      rw [List.map_map, getD_map_range _ B j _ hj]
      simp only [Function.comp, hbound, hstates]
      exact getD_writeSlice _ _ _ _ (Nat.mod_lt _ hnpos)
    · show (((List.range B).map fun i =>
          rng i % (Min.min (loadedBuffer sd ad cap d).size
            (loadedBuffer sd ad cap d).pointer)).map fun i =>
          (loadedBuffer sd ad cap d).actions.getD i []).getD j [] = _
      rw [List.map_map, getD_map_range _ B j _ hj]
      simp only [Function.comp, hbound, hactions]
      exact getD_writeSlice _ _ _ _ (by rw [hact]; exact Nat.mod_lt _ hnpos)
    · show (((List.range B).map fun i =>
          rng i % (Min.min (loadedBuffer sd ad cap d).size
            (loadedBuffer sd ad cap d).pointer)).map fun i =>
          (loadedBuffer sd ad cap d).rewards.getD i 0).getD j 0 = _
      rw [List.map_map, getD_map_range _ B j _ hj]
      simp only [Function.comp, hbound, hrewards]
      exact getD_writeSlice _ _ _ _ (by rw [hrew]; exact Nat.mod_lt _ hnpos)
    · show (((List.range B).map fun i =>
          rng i % (Min.min (loadedBuffer sd ad cap d).size
            (loadedBuffer sd ad cap d).pointer)).map fun i =>
          (loadedBuffer sd ad cap d).nextStates.getD i []).getD j [] = _
      rw [List.map_map, getD_map_range _ B j _ hj]
      simp only [Function.comp, hbound, hnext]
      exact getD_writeSlice _ _ _ _ (by rw [hnobs]; exact Nat.mod_lt _ hnpos)
    · show (((List.range B).map fun i =>
          rng i % (Min.min (loadedBuffer sd ad cap d).size
            (loadedBuffer sd ad cap d).pointer)).map fun i =>
          (loadedBuffer sd ad cap d).dones.getD i 0).getD j 0 = _
      rw [List.map_map, getD_map_range _ B j _ hj]
      simp only [Function.comp, hbound, hdones]
      exact getD_writeSlice _ _ _ _ (by rw [hterm]; exact Nat.mod_lt _ hnpos)

/-- C7 (witness): sampling a batch of 2 from a two-transition dataset loaded
into a capacity-3 buffer returns columns of length 2, each drawn at an
in-range common index reproducing a loaded transition, without mutating the
buffer. -/
theorem sample_roundtrip_witness :
    (sample (loadedBuffer 1 1 3 ⟨[[1], [2]], [[3], [4]], [5, 6], [[7], [8]], [0, 1]⟩)
        (fun k => k) 2).2
      = loadedBuffer 1 1 3 ⟨[[1], [2]], [[3], [4]], [5, 6], [[7], [8]], [0, 1]⟩
    ∧ (sample (loadedBuffer 1 1 3 ⟨[[1], [2]], [[3], [4]], [5, 6], [[7], [8]], [0, 1]⟩)
        (fun k => k) 2).1.states.length = 2
    ∧ (sample (loadedBuffer 1 1 3 ⟨[[1], [2]], [[3], [4]], [5, 6], [[7], [8]], [0, 1]⟩)
        (fun k => k) 2).1.actions.length = 2
    ∧ (sample (loadedBuffer 1 1 3 ⟨[[1], [2]], [[3], [4]], [5, 6], [[7], [8]], [0, 1]⟩)
        (fun k => k) 2).1.rewards.length = 2
    ∧ (sample (loadedBuffer 1 1 3 ⟨[[1], [2]], [[3], [4]], [5, 6], [[7], [8]], [0, 1]⟩)
        (fun k => k) 2).1.nextStates.length = 2
    ∧ (sample (loadedBuffer 1 1 3 ⟨[[1], [2]], [[3], [4]], [5, 6], [[7], [8]], [0, 1]⟩)
        (fun k => k) 2).1.dones.length = 2
    ∧ ∀ j, j < 2 →
        ∃ i, i < Min.min
            (loadedBuffer 1 1 3 ⟨[[1], [2]], [[3], [4]], [5, 6], [[7], [8]], [0, 1]⟩).size
            (loadedBuffer 1 1 3 ⟨[[1], [2]], [[3], [4]], [5, 6], [[7], [8]], [0, 1]⟩).pointer
          ∧ (sample (loadedBuffer 1 1 3 ⟨[[1], [2]], [[3], [4]], [5, 6], [[7], [8]], [0, 1]⟩)
              (fun k => k) 2).1.states.getD j []
            = ((⟨[[1], [2]], [[3], [4]], [5, 6], [[7], [8]], [0, 1]⟩ : Dataset).observations).getD i []
          ∧ (sample (loadedBuffer 1 1 3 ⟨[[1], [2]], [[3], [4]], [5, 6], [[7], [8]], [0, 1]⟩)
              (fun k => k) 2).1.actions.getD j []
            = ((⟨[[1], [2]], [[3], [4]], [5, 6], [[7], [8]], [0, 1]⟩ : Dataset).actions).getD i []
          ∧ (sample (loadedBuffer 1 1 3 ⟨[[1], [2]], [[3], [4]], [5, 6], [[7], [8]], [0, 1]⟩)
              (fun k => k) 2).1.rewards.getD j 0
            = ((⟨[[1], [2]], [[3], [4]], [5, 6], [[7], [8]], [0, 1]⟩ : Dataset).rewards).getD i 0
          ∧ (sample (loadedBuffer 1 1 3 ⟨[[1], [2]], [[3], [4]], [5, 6], [[7], [8]], [0, 1]⟩)
              (fun k => k) 2).1.nextStates.getD j []
            = ((⟨[[1], [2]], [[3], [4]], [5, 6], [[7], [8]], [0, 1]⟩ : Dataset).nextObservations).getD i []
          ∧ (sample (loadedBuffer 1 1 3 ⟨[[1], [2]], [[3], [4]], [5, 6], [[7], [8]], [0, 1]⟩)
              (fun k => k) 2).1.dones.getD j 0
            = ((⟨[[1], [2]], [[3], [4]], [5, 6], [[7], [8]], [0, 1]⟩ : Dataset).terminals).getD i 0 :=
  sample_roundtrip 1 1 3 ⟨[[1], [2]], [[3], [4]], [5, 6], [[7], [8]], [0, 1]⟩
    (fun k => k) 2 (by decide) rfl rfl rfl rfl (by decide) (by decide)

/-- C8: in Lagrange mode, `alpha_prime = clamp(exp(log_alpha_prime), 0, 1e6)`,
each conservative loss term is `alpha_prime * cql_alpha * (diff -
target_action_gap)`, the dedicated `alpha_prime` optimizer pass minimizes
`-(term1 + term2) / 2` and runs strictly before the main critic backward pass
in the `train_ori` effect trace; with Lagrange mode off, the terms are
`diff * cql_alpha`, `alpha_prime` is reported as 0, and no `alpha_prime`
optimizer step occurs. -/
theorem lagrange_mode_terms (logAlphaPrime cqlAlpha targetActionGap diff1 diff2 : ℝ) :
    ((cqlConservativeTerms true logAlphaPrime cqlAlpha targetActionGap diff1 diff2).alphaPrime
        = clamp (Real.exp logAlphaPrime) 0 1000000
      ∧ (cqlConservativeTerms true logAlphaPrime cqlAlpha targetActionGap diff1 diff2).cqlMinQf1Loss
        = (cqlConservativeTerms true logAlphaPrime cqlAlpha targetActionGap diff1 diff2).alphaPrime
            * cqlAlpha * (diff1 - targetActionGap)
      ∧ (cqlConservativeTerms true logAlphaPrime cqlAlpha targetActionGap diff1 diff2).cqlMinQf2Loss
        = (cqlConservativeTerms true logAlphaPrime cqlAlpha targetActionGap diff1 diff2).alphaPrime
            * cqlAlpha * (diff2 - targetActionGap)
      ∧ (cqlConservativeTerms true logAlphaPrime cqlAlpha targetActionGap diff1 diff2).alphaPrimeLoss
        = -(((cqlConservativeTerms true logAlphaPrime cqlAlpha targetActionGap diff1 diff2).cqlMinQf1Loss
              + (cqlConservativeTerms true logAlphaPrime cqlAlpha targetActionGap diff1 diff2).cqlMinQf2Loss)) / 2
      ∧ ∀ auto syncNow : Bool,
          Event.alphaPrimeStep ∈ trainOriEvents auto true syncNow
          ∧ (trainOriEvents auto true syncNow).indexOf Event.alphaPrimeStep
              < (trainOriEvents auto true syncNow).indexOf Event.qfBackward)
    ∧ ((cqlConservativeTerms false logAlphaPrime cqlAlpha targetActionGap diff1 diff2).cqlMinQf1Loss
        = diff1 * cqlAlpha
      ∧ (cqlConservativeTerms false logAlphaPrime cqlAlpha targetActionGap diff1 diff2).cqlMinQf2Loss
        = diff2 * cqlAlpha
      ∧ (cqlConservativeTerms false logAlphaPrime cqlAlpha targetActionGap diff1 diff2).alphaPrime = 0
      ∧ ∀ auto syncNow : Bool, Event.alphaPrimeStep ∉ trainOriEvents auto false syncNow) := by
  refine ⟨⟨?_, ?_, ?_, ?_, ?_⟩, ?_, ?_, ?_, ?_⟩
  · simp [cqlConservativeTerms, lagrangeAlphaPrime]
  · simp [cqlConservativeTerms]
  · simp [cqlConservativeTerms]
  · simp only [cqlConservativeTerms, if_true]
    ring
  · intro auto syncNow
    cases auto <;> cases syncNow <;> exact ⟨by decide, by decide⟩
  · simp [cqlConservativeTerms]
  · simp [cqlConservativeTerms]
  · simp [cqlConservativeTerms]
  · intro auto syncNow
    cases auto <;> cases syncNow <;> decide

/-- C9: the online-append operation always fails with the not-implemented
error — never a silent no-op — and never mutates the buffer. -/
theorem add_transition_not_implemented (b : Buffer) :
    add_transition b = (b, some AddError.notImplemented)
    ∧ (add_transition b).2 ≠ none :=
  ⟨rfl, by simp [add_transition]⟩

/-- C10: `TanhGaussianPolicy.__init__` stores the `orthogonal_init` flag but
initializes the base network identically for every flag value: the hidden
linear layers keep the framework default initialization and the last layer
gets the uniform-variant (`xavier_uniform_`) initializer with gain `0.01` and
a zero bias, exactly as with the flag off. -/
theorem tanh_policy_init_ignores_flag (stateDim actionDim : ℕ)
    (maxAction logStdMultiplier logStdOffset : ℝ) (noTanh flag : Bool) :
    (TanhGaussianPolicy.construct stateDim actionDim maxAction logStdMultiplier
        logStdOffset flag noTanh).orthogonalInit = flag
    ∧ (TanhGaussianPolicy.construct stateDim actionDim maxAction logStdMultiplier
        logStdOffset flag noTanh).baseNetwork
      = (TanhGaussianPolicy.construct stateDim actionDim maxAction logStdMultiplier
          logStdOffset false noTanh).baseNetwork
    ∧ (TanhGaussianPolicy.construct stateDim actionDim maxAction logStdMultiplier
        logStdOffset flag noTanh).baseNetwork
      = [Layer.linear stateDim 256 WeightInit.frameworkDefault BiasInit.frameworkDefault,
         Layer.relu,
         Layer.linear 256 256 WeightInit.frameworkDefault BiasInit.frameworkDefault,
         Layer.relu,
         Layer.linear 256 256 WeightInit.frameworkDefault BiasInit.frameworkDefault,
         Layer.relu,
         Layer.linear 256 (2 * actionDim) (WeightInit.xavierUniformGain (1 / 100))
           (BiasInit.constantFill 0)] :=
  ⟨rfl, rfl, rfl⟩

end CQL
